import Mathlib

/-
Verification of the zeus HTTP transport layer (transport/http of the
JellyTony/zeus repository): a shallow embedding in Lean 4 of the code in
filter.go, router.go, context.go and server.go, together with theorems
settling the frozen claims about that code.

Modelling conventions:
  * Go values that only serve as opaque handles (http.ResponseWriter,
    net.Listener, gin writers) are modelled as `Nat` identifiers.
  * Nilable Go pointers and interfaces are `Option`.
  * Fallible calls are `Except` / `Option`.
  * A Go panic is modelled with the `POut` outcome type: `POut.bind`
    sequences two statements where the second is skipped when the first
    panics (plain Go statement sequencing), while a deferred call runs on
    both normal return and panic unwind.
  * time.Time / time.Duration are modelled as `Nat` instants and `Int`
    durations (the zero time is `0`).
-/

namespace Zeus

/-- Outcome of running a piece of Go code that may panic. -/
inductive POut (α : Type) where
  | ok (a : α)
  | panicked

/-- Go statement sequencing: if the first statement panics, the rest of the
function body is skipped and the panic propagates. -/
def POut.bind {α β : Type} : POut α → (α → POut β) → POut β
  | .ok a, f => f a
  | .panicked, _ => .panicked

/-- Go `defer` semantics: the deferred call runs when the surrounding
function exits, on normal return and on panic unwind alike.  The `Bool`
component records that the deferred call ran. -/
def withDeferredCancel {α : Type} (body : POut α) : POut α × Bool :=
  (body, true)

/- ------------------------------------------------------------------
   Errors (github.com/go-kratos/kratos/v2/errors, as used by filter.go)
   ------------------------------------------------------------------ -/

/-- A kratos error value: status code, machine-readable reason, message. -/
structure ZErr where
  code : Nat
  reason : String
  message : String
deriving DecidableEq

/-- kratos errors.UnknownReason is the empty string. -/
def unknownReason : String := ""

/-- kratos errors.Errorf: builds an error from code, reason and message. -/
def errorsErrorf (code : Nat) (reason message : String) : ZErr :=
  { code := code, reason := reason, message := message }

/- ------------------------------------------------------------------
   filter.go: FilterChain
   ------------------------------------------------------------------ -/

/-- filter.go FilterChain: `for i := len(filters)-1; i >= 0; i--
yields next = filters[i](next)`; the downward index loop is the fold over
the reversed list.  Generic in the handler type (http.Handler in Go). -/
def FilterChain {α : Type} (filters : List (α → α)) : α → α :=
  fun next => filters.reverse.foldl (fun nx f => f nx) next

theorem filterChain_eq_foldr {α : Type} (filters : List (α → α)) (next : α) :
    FilterChain filters next = filters.foldr (fun f nx => f nx) next := by
  simp [FilterChain, List.foldl_reverse]

/- ------------------------------------------------------------------
   context.go: the pooled wrapper and its Reset / context methods
   ------------------------------------------------------------------ -/

/-- Model of a Go context.Context carried by a request: its deadline, its
done channel (`none` models a nil channel), its Err result and its value
lookup function. -/
structure RCtx where
  deadline : Option Nat
  done : Option Nat
  errRes : Option String
  values : Nat → Option Nat

/-- Model of an *http.Request: all the wrapper needs is its context. -/
structure Req where
  rctx : RCtx

/-- context.go responseWriter: a buffered status code plus the underlying
http.ResponseWriter (a nilable handle). -/
structure responseWriter where
  code : Nat
  w : Option Nat

/-- context.go responseWriter.reset: `w.w = res; w.code = http.StatusOK`. -/
def responseWriter.reset (rw : responseWriter) (res : Option Nat) : responseWriter :=
  { rw with w := res, code := 200 }

/-- Model of a *gin.Context as far as router.go uses it: its Writer and
its Request. -/
structure GinCtxModel where
  writer : Nat
  request : Req

/-- context.go wrapper: the pooled per-request Context.  `ginCtx` is the
embedded *gin.Context, `req`/`res` the live request and response writer,
`w` the buffered responseWriter.  (The `router` back-reference carries no
per-request state and is omitted; codec calls made through it are modelled
separately below.) -/
structure wrapper where
  ginCtx : Option GinCtxModel
  req : Option Req
  res : Option Nat
  w : responseWriter

/-- context.go wrapper.Reset: `c.w.reset(res); c.res = res; c.req = req`. -/
def wrapper.Reset (c : wrapper) (res : Option Nat) (req : Option Req) : wrapper :=
  { c with w := c.w.reset res, res := res, req := req }

/-- Deadline of a request context, Go-style: `(d, true)` when a deadline is
set, `(zero time, false)` otherwise. -/
def RCtx.Deadline (r : RCtx) : Nat × Bool :=
  match r.deadline with
  | some d => (d, true)
  | none => (0, false)

/-- context.go wrapper.Deadline: zero time and false when `req` is nil,
else the request context deadline. -/
def wrapper.Deadline (c : wrapper) : Nat × Bool :=
  match c.req with
  | none => (0, false)
  | some r => r.rctx.Deadline

/-- context.go wrapper.Done: nil channel when `req` is nil, else the
request context done channel. -/
def wrapper.Done (c : wrapper) : Option Nat :=
  match c.req with
  | none => none
  | some r => r.rctx.done

/-- The context.Canceled sentinel error. -/
def contextCanceled : String := "context canceled"

/-- context.go wrapper.Err: context.Canceled when `req` is nil, else the
request context Err. -/
def wrapper.Err (c : wrapper) : Option String :=
  match c.req with
  | none => some contextCanceled
  | some r => r.rctx.errRes

/-- context.go wrapper.Value: nil when `req` is nil, else the request
context value lookup. -/
def wrapper.Value (c : wrapper) (key : Nat) : Option Nat :=
  match c.req with
  | none => none
  | some r => r.rctx.values key

/- ------------------------------------------------------------------
   router.go: the per-request function registered by Router.Handle
   ------------------------------------------------------------------ -/

/-- sync.Pool.Get as router.go uses it: take a pooled wrapper if one is
available, otherwise the pool factory allocates a zero-valued wrapper. -/
def poolGet (pool : List wrapper) : wrapper × List wrapper :=
  match pool with
  | [] => ({ ginCtx := none, req := none, res := none, w := { code := 0, w := none } }, [])
  | x :: xs => (x, xs)

/-- A zero-valued wrapper as produced by the pool factory. -/
def freshWrapper : wrapper :=
  { ginCtx := none, req := none, res := none, w := { code := 0, w := none } }

/-- router.go Router.Handle, the registered per-request closure `next`:
acquire a wrapper from the pool, attach the gin context, Reset with the
live writer/request, run the composed middleware chain `nt` (abstracted
as `chainRun`, which may panic), then Reset(nil, nil), clear the gin
back-reference and put the wrapper back.  The release statements are
plain statement sequencing after the chain call — there is no defer — so
they are modelled under `POut.bind` and are skipped when the chain
panics. -/
def routerHandleNext (chainRun : wrapper → POut wrapper) (c : GinCtxModel)
    (pool : List wrapper) : POut (List wrapper) :=
  let ctx0 := (poolGet pool).1
  let rest := (poolGet pool).2
  let ctx1 : wrapper := { ctx0 with ginCtx := some c }
  let ctx2 := ctx1.Reset (some c.writer) (some c.request)
  POut.bind (chainRun ctx2) (fun ctx3 =>
    let ctx4 := ctx3.Reset none none
    let ctx5 : wrapper := { ctx4 with ginCtx := none }
    POut.ok (rest ++ [ctx5]))

/-- A concrete request context with no deadline, a live done channel and
no stored values, used for concrete runs. -/
def rctx0 : RCtx :=
  { deadline := none, done := some 3, errRes := none, values := fun _ => none }

/-- A concrete gin context for concrete runs. -/
def gc0 : GinCtxModel := { writer := 7, request := { rctx := rctx0 } }

/- ------------------------------------------------------------------
   router.go / context.go: the terminal step `nt` of Handle and
   wrapper.Returns.  The configured response encoder `enc` and error
   encoder `ene` are abstract function slots; a run records how they
   were called.
   ------------------------------------------------------------------ -/

/-- The Server codec slots as the terminal step sees them: the outcome
the configured response encoder returns when invoked (`none` = success,
`some e` = the encoder itself failed with `e`). -/
structure Codec where
  encResult : Option ZErr

/-- Record of encoder invocations during one request: how many times the
response encoder `enc` ran, and the argument triples
(writer, request id, error) the error encoder `ene` received, in order. -/
structure CallLog where
  encCalls : Nat
  eneCalls : List (Nat × Nat × ZErr)
deriving DecidableEq

/-- context.go wrapper.Returns: `if err != nil { return err };
return srv.enc(&c.w, c.req, v)` — with a non-nil error the response
encoder is skipped and the error returned; otherwise the response
encoder runs once and its result is returned. -/
def wrapper.Returns (srv : Codec) (err : Option ZErr) (log : CallLog) :
    Option ZErr × CallLog :=
  match err with
  | some e => (some e, log)
  | none => (srv.encResult, { log with encCalls := log.encCalls + 1 })

/-- router.go Router.Handle, terminal step `nt`: run the handler `h`
(which may itself call encoders through the wrapper, hence the log
threading); if it returned a non-nil error, call the configured error
encoder with the raw gin writer, the request and that error; the step
result is the writer paired with the handler error. -/
def handleTerminal (_srv : Codec) (writer req : Nat)
    (h : CallLog → Option ZErr × CallLog) (log : CallLog) :
    (Nat × Option ZErr) × CallLog :=
  let r := h log
  match r.1 with
  | some e => ((writer, some e), { r.2 with eneCalls := r.2.eneCalls ++ [(writer, req, e)] })
  | none => ((writer, none), r.2)

/- ------------------------------------------------------------------
   server.go Server.filter: the per-request timeout / transport filter
   ------------------------------------------------------------------ -/

/-- The deadline view of a derived context.Context. -/
structure CtxModel where
  deadline : Option Nat
deriving DecidableEq

/-- context.WithCancel: the derived context is cancelable and inherits
the parent deadline unchanged. -/
def contextWithCancel (parent : CtxModel) : CtxModel :=
  { deadline := parent.deadline }

/-- context.WithTimeout(parent, d) = WithDeadline(parent, now+d): the
derived deadline is now+d, adjusted to be no later than the parent
deadline when the parent already has an earlier one. -/
def contextWithTimeout (parent : CtxModel) (now d : Nat) : CtxModel :=
  { deadline := some (match parent.deadline with
      | none => now + d
      | some pd => min pd (now + d)) }

/-- server.go Server.filter, lines 228-232: derive the per-request
context with WithTimeout when `s.timeout > 0`, otherwise with
WithCancel.  `now` is the request start instant, `timeout` the
configured time.Duration. -/
def serverFilterDerive (timeout : Int) (now : Nat) (parent : CtxModel) : CtxModel :=
  if 0 < timeout then contextWithTimeout parent now timeout.toNat
  else contextWithCancel parent

/-- server.go Server.filter, whole body as far as the derived context is
concerned: derive the context, run the rest of the request (`next`,
which may panic) under `defer cancel()`.  The Bool component records
that the deferred cancel ran. -/
def serverFilterRun (timeout : Int) (now : Nat) (parent : CtxModel)
    (next : CtxModel → POut Unit) : POut Unit × Bool :=
  withDeferredCancel (next (serverFilterDerive timeout now parent))

/- ------------------------------------------------------------------
   filter.go Middlewares and server.go NewServer handler wiring
   ------------------------------------------------------------------ -/

/-- Gin request state as the status-to-error translation sees it:
the response status recorded by the writer and the error list that
gin.Context.Error appends to. -/
structure GinState where
  status : Nat
  ginErrors : List ZErr
deriving DecidableEq

/-- An http.Handler / gin dispatch step: transforms the request state. -/
abbrev HttpHandler := GinState → GinState

/-- A kratos middleware.Handler in state-passing form: produces the new
request state and an error. -/
abbrev MWHandler := GinState → GinState × Option ZErr

/-- A kratos middleware.Middleware: wraps a handler. -/
abbrev MW := MWHandler → MWHandler

/-- kratos middleware.Chain: the same downward index loop as FilterChain,
over middleware.Handler. -/
def middlewareChain (ms : List MW) : MWHandler → MWHandler :=
  fun next => ms.reverse.foldl (fun nx m => m nx) next

/-- filter.go Middlewares, inner closure `next`: run c.Next()
(the gin dispatch, `engineNext`), then translate a response status
>= http.StatusBadRequest into errors.Errorf(status, UnknownReason,
UnknownReason); the handler result is the writer with that error. -/
def middlewaresNext (engineNext : HttpHandler) : MWHandler :=
  fun s =>
    let s1 := engineNext s
    if 400 ≤ s1.status then
      (s1, some (errorsErrorf s1.status unknownReason unknownReason))
    else
      (s1, none)

/-- filter.go Middlewares: wrap the status-to-error closure in the kratos
middleware chain, run it, and record a non-nil resulting error on the gin
context via c.Error.  (The gin-context/operation plumbing lines carry no
state observed here and are omitted.) -/
def Middlewares (ms : List MW) (engineNext : HttpHandler) : HttpHandler :=
  fun s0 =>
    let r := middlewareChain ms (middlewaresNext engineNext) s0
    match r.2 with
    | some e => { r.1 with ginErrors := r.1.ginErrors ++ [e] }
    | none => r.1

/-- server.go NewServer, lines 166-169: the server-level handler is
`FilterChain(srv.filters...)(srv.engine)` — the global filter chain
applied directly to the gin engine.  `engine` abstracts the whole gin
dispatch including the middlewares installed with engine.Use. -/
def newServerHandler (filters : List (HttpHandler → HttpHandler))
    (engine : HttpHandler) : HttpHandler :=
  FilterChain filters engine

/-- Formalisation of the claim sentence (not of the source): the
server-level handler would be the global filter chain wrapping the
status-to-error translation (`Middlewares` with the global middleware
list) wrapping the dispatch engine. -/
def claimedServerHandler (filters : List (HttpHandler → HttpHandler))
    (ms : List MW) (engine : HttpHandler) : HttpHandler :=
  FilterChain filters (Middlewares ms engine)

/-- A dispatch engine whose handling of the request ends with response
status 500. -/
def engine500 : HttpHandler := fun s => { s with status := 500 }

/- ------------------------------------------------------------------
   path.Clean / path.Join (Go standard library, as used by router.go)
   and Router.Group
   ------------------------------------------------------------------ -/

/-- Split a character list on the slash separator. -/
def splitSlashAux : List Char → List Char → List String
  | [], cur => [String.mk cur.reverse]
  | c :: cs, cur =>
    if c = '/' then String.mk cur.reverse :: splitSlashAux cs []
    else splitSlashAux cs (c :: cur)

/-- Join path elements with the slash separator. -/
def joinSlash : List String → String
  | [] => ""
  | [x] => x
  | x :: xs => x ++ "/" ++ joinSlash xs

/-- The element-processing loop of Go path.Clean: skip empty and dot
elements; a dot-dot element pops the last kept element, is dropped at the
root of a rooted path, and is kept when a relative path has nothing left
to pop.  `st` is the stack of kept elements, most recent first. -/
def cleanParts : List String → List String → Bool → List String
  | [], st, _ => st
  | e :: rest, st, rooted =>
    if e = "" ∨ e = "." then cleanParts rest st rooted
    else if e = ".." then
      match st with
      | [] =>
        if rooted then cleanParts rest [] rooted
        else cleanParts rest [".."] rooted
      | t :: ts =>
        if t = ".." then cleanParts rest (".." :: t :: ts) rooted
        else cleanParts rest ts rooted
    else cleanParts rest (e :: st) rooted

/-- Go path.Clean: the shortest lexical equivalent of the path.  The
empty path cleans to dot; a path that cleans to nothing is the root when
rooted and dot otherwise. -/
def pathClean (p : String) : String :=
  if p = "" then "."
  else
    let rooted : Bool := match p.data with | '/' :: _ => true | _ => false
    let st := (cleanParts (splitSlashAux p.data []) [] rooted).reverse
    match st with
    | [] => if rooted then "/" else "."
    | _ => if rooted then "/" ++ joinSlash st else joinSlash st

/-- Go path.Join on two elements: join from the first non-empty element
with a slash and Clean the result; all-empty input yields the empty
string. -/
def pathJoin (a b : String) : String :=
  if a = "" then (if b = "" then "" else pathClean b)
  else pathClean (a ++ "/" ++ b)

/-- router.go Router: the route path and the inherited middleware
list.  Generic in the middleware type; the srv back-reference and the
per-router sync.Pool carry no data the routing claims depend on and are
modelled separately. -/
structure Router (α : Type) where
  pfx : String
  filters : List α

/-- router.go Router.Group: a new Router whose path is the path.Join of
the parent path and the given one and whose middleware list is the
parent list with the additions appended; the parent is not changed. -/
def Router.Group {α : Type} (r : Router α) (p : String) (mws : List α) : Router α :=
  { pfx := pathJoin r.pfx p, filters := r.filters ++ mws }

/-- router.go Router.Handle, lines 60-62: the middleware list composed
for a route is the router list followed by the route-specific list. -/
def Router.handleMs {α : Type} (r : Router α) (mws : List α) : List α :=
  r.filters ++ mws

/- ------------------------------------------------------------------
   server.go: listenAndEndpoint, Endpoint, Start
   ------------------------------------------------------------------ -/

/-- A Go error as Start and listenAndEndpoint handle it: either the
http.ErrServerClosed sentinel or some other error. -/
inductive GoError where
  | errServerClosed
  | other (msg : String)
deriving DecidableEq

/-- Equality test on Go errors (the model errors carry no wrapping). -/
def goErrorEq : GoError → GoError → Bool
  | .errServerClosed, .errServerClosed => true
  | .other a, .other b => decide (a = b)
  | _, _ => false

/-- Go errors.Is against a sentinel (a nil error never matches a non-nil
target). -/
def errorsIs (e : Option GoError) (target : GoError) : Bool :=
  match e with
  | none => false
  | some x => goErrorEq x target

/-- An endpoint URL: scheme and host:port. -/
structure URL where
  scheme : String
  host : String
deriving DecidableEq

/-- Modelled from the spec: internal/endpoint.Scheme is not under src;
per the spec the endpoint scheme is https exactly when TLS is
configured, i.e. the secure flag appends the s to the base scheme. -/
def endpointScheme (scheme : String) (secure : Bool) : String :=
  if secure then scheme ++ "s" else scheme

/-- Modelled from the spec: internal/endpoint.NewEndpoint is not under
src; per the spec it builds the scheme://host:port URL from the scheme
and the resolved address. -/
def newEndpoint (scheme host : String) : URL :=
  { scheme := scheme, host := host }

/-- The network environment a server runs against: the outcome of
net.Listen for the configured network/address, and the outcome of
internal/host.Extract (not under src, modelled as an abstract resolver)
on the bound listener. -/
structure NetEnv where
  bind : Except GoError Nat
  extract : Option Nat → Except GoError String

/-- The listener/endpoint fields of the Server, plus an instrumentation
counter of net.Listen calls. -/
structure SrvState where
  lis : Option Nat
  endpoint : Option URL
  err : Option GoError
  bindCount : Nat
deriving DecidableEq

/-- server.go listenAndEndpoint, second half: if the endpoint is not yet
computed, resolve the address from the listener (recording a failure in
s.err and returning it), else build the endpoint with scheme http or
https according to TLS; finally return the stored s.err. -/
def listenAndEndpointPhase2 (env : NetEnv) (tls : Bool) (s : SrvState) :
    SrvState × Option GoError :=
  match s.endpoint with
  | some _ => (s, s.err)
  | none =>
    match env.extract s.lis with
    | .error e => ({ s with err := some e }, some e)
    | .ok addr =>
      let s2 := { s with endpoint := some (newEndpoint (endpointScheme "http" tls) addr) }
      (s2, s2.err)

/-- server.go listenAndEndpoint: if no listener is held yet, call
net.Listen (recording a failure in s.err and returning it), then resolve
the endpoint; the bind counter counts net.Listen calls. -/
def listenAndEndpoint (env : NetEnv) (tls : Bool) (s : SrvState) :
    SrvState × Option GoError :=
  match s.lis with
  | some _ => listenAndEndpointPhase2 env tls s
  | none =>
    match env.bind with
    | .error e => ({ s with err := some e, bindCount := s.bindCount + 1 }, some e)
    | .ok l =>
      listenAndEndpointPhase2 env tls { s with lis := some l, bindCount := s.bindCount + 1 }

/-- server.go Server.Endpoint: run listenAndEndpoint and surface its
error, else return the stored endpoint. -/
def serverEndpoint (env : NetEnv) (tls : Bool) (s : SrvState) :
    SrvState × Except GoError (Option URL) :=
  let r := listenAndEndpoint env tls s
  match r.2 with
  | some e => (r.1, .error e)
  | none => (r.1, .ok r.1.endpoint)

/-- A fresh Server: no listener, no endpoint, no stored error. -/
def freshSrv : SrvState :=
  { lis := none, endpoint := none, err := none, bindCount := 0 }

/-- server.go Server.Start: a listenAndEndpoint failure is returned
before the serve loop runs (third component false = the serve loop was
never entered); otherwise the serve loop runs and its terminal error is
returned unchanged unless errors.Is finds the ErrServerClosed sentinel,
which is treated as normal termination.  `serveErr` is the error the
blocking Serve/ServeTLS call eventually returns. -/
def serverStart (env : NetEnv) (tls : Bool) (serveErr : Option GoError)
    (s : SrvState) : SrvState × Option GoError × Bool :=
  let r := listenAndEndpoint env tls s
  match r.2 with
  | some e => (r.1, some e, false)
  | none =>
    if errorsIs serveErr GoError.errServerClosed then (r.1, none, true)
    else (r.1, serveErr, true)

/- ------------------------------------------------------------------
   Claim theorems C1 - C3
   ------------------------------------------------------------------ -/

/-- C1: FilterChain applied to a terminal handler yields the nested
composition with filters[0] outermost: the empty chain returns the
terminal unchanged, the chain equals the right fold `f1 (f2 (... fn h))`,
and consing a filter wraps it outermost around the rest of the chain. -/
theorem C1_filter_chain_composition {α : Type} (filters : List (α → α))
    (term : α) (f : α → α) :
    FilterChain ([] : List (α → α)) term = term
    ∧ FilterChain filters term = filters.foldr (fun g nx => g nx) term
    ∧ FilterChain (f :: filters) term = f (FilterChain filters term) := by
  refine ⟨rfl, filterChain_eq_foldr filters term, ?_⟩
  rw [filterChain_eq_foldr, filterChain_eq_foldr]
  rfl

/-- C2: the per-request function of Router.Handle releases the pooled
wrapper (Reset(nil, nil), gin back-reference cleared, pool.Put) only on
the normal return path.  The release statements follow the chain call
with no defer, so when the handler or any middleware panics the release
is skipped and the wrapper never returns to the pool: the run ends in the
panic outcome for every gin context and every pool.  On the normal path
the wrapper is released in the cleared state. -/
theorem C2_release_skipped_on_panic :
    (∀ (c : GinCtxModel) (pool : List wrapper),
      routerHandleNext (fun _ => POut.panicked) c pool = POut.panicked)
    ∧ routerHandleNext (fun x => POut.ok x) gc0 [freshWrapper]
        = POut.ok [{ ginCtx := none, req := none, res := none,
                     w := { code := 200, w := none } }] :=
  ⟨fun _ _ => rfl, rfl⟩

/-- C3: after Reset(nil, nil) followed by clearing the gin back-reference,
the wrapper retains no reference to the completed request: its request,
response writer, buffered writer target and embedded gin context are all
nil. -/
theorem C3_reset_clears_references (c : wrapper) :
    ({ c.Reset none none with ginCtx := none } : wrapper).req = none
    ∧ ({ c.Reset none none with ginCtx := none } : wrapper).res = none
    ∧ ({ c.Reset none none with ginCtx := none } : wrapper).w.w = none
    ∧ ({ c.Reset none none with ginCtx := none } : wrapper).ginCtx = none :=
  ⟨rfl, rfl, rfl, rfl⟩

/-- C4 counterexample: the claim that the response encoder and the error
encoder are never both invoked for one request outcome is false at a
concrete input.  With a configured response encoder that itself fails,
a handler that encodes through Returns with a nil error invokes the
response encoder once, Returns surfaces the encoder failure as the
handler error, and the terminal step then invokes the error encoder with
it: one request outcome, both encoders invoked. -/
theorem C4_counterexample :
    ((handleTerminal { encResult := some (errorsErrorf 500 unknownReason "encode failure") }
        1 2
        (wrapper.Returns { encResult := some (errorsErrorf 500 unknownReason "encode failure") } none)
        { encCalls := 0, eneCalls := [] }).2.encCalls = 1)
    ∧ ((handleTerminal { encResult := some (errorsErrorf 500 unknownReason "encode failure") }
        1 2
        (wrapper.Returns { encResult := some (errorsErrorf 500 unknownReason "encode failure") } none)
        { encCalls := 0, eneCalls := [] }).2.eneCalls
          = [(1, 2, errorsErrorf 500 unknownReason "encode failure")]) :=
  ⟨rfl, rfl⟩

/-- C4 amended: the terminal step returns the writer paired with the
handler error and calls the error encoder exactly once, with the raw
writer, the request and that error, if and only if the handler error is
non-nil; the terminal step never calls the response encoder; Returns
skips the response encoder whenever its error argument is non-nil; and
when the configured response encoder succeeds (returns nil), a
Returns-encoding handler never has both encoders invoked for one request
outcome.  (If the response encoder itself fails, both run: see the
counterexample.) -/
theorem C4_amended (srv : Codec) (writer req : Nat)
    (h : CallLog → Option ZErr × CallLog) (log : CallLog) :
    (handleTerminal srv writer req h log).1 = (writer, (h log).1)
    ∧ (handleTerminal srv writer req h log).2.eneCalls
        = (h log).2.eneCalls
          ++ (match (h log).1 with | some e => [(writer, req, e)] | none => [])
    ∧ (handleTerminal srv writer req h log).2.encCalls = (h log).2.encCalls
    ∧ (∀ e : ZErr, wrapper.Returns srv (some e) log = (some e, log))
    ∧ (∀ e : Option ZErr, srv.encResult = none →
        ¬(log.encCalls <
            (handleTerminal srv writer req (wrapper.Returns srv e) log).2.encCalls
          ∧ log.eneCalls.length <
            (handleTerminal srv writer req (wrapper.Returns srv e) log).2.eneCalls.length)) := by
  refine ⟨?_, ?_, ?_, fun e => rfl, ?_⟩
  · rcases hr : h log with ⟨err, l1⟩
    cases err <;> simp [handleTerminal, hr]
  · rcases hr : h log with ⟨err, l1⟩
    cases err <;> simp [handleTerminal, hr]
  · rcases hr : h log with ⟨err, l1⟩
    cases err <;> simp [handleTerminal, hr]
  · intro e henc
    cases e with
    | some e1 =>
        simp [handleTerminal, wrapper.Returns]
    | none =>
        simp [handleTerminal, wrapper.Returns, henc]

/-- C4 amended, witness: with a succeeding response encoder and a handler
encoding Returns of a nil error, the encoders are not both invoked. -/
theorem C4_amended_wit :
    (({ encResult := none } : Codec).encResult = none)
    ∧ ¬(({ encCalls := 0, eneCalls := [] } : CallLog).encCalls <
          (handleTerminal { encResult := none } 1 2
            (wrapper.Returns { encResult := none } none)
            { encCalls := 0, eneCalls := [] }).2.encCalls
        ∧ (({ encCalls := 0, eneCalls := [] } : CallLog)).eneCalls.length <
          (handleTerminal { encResult := none } 1 2
            (wrapper.Returns { encResult := none } none)
            { encCalls := 0, eneCalls := [] }).2.eneCalls.length) :=
  ⟨rfl, (C4_amended { encResult := none } 1 2
          (wrapper.Returns { encResult := none } none)
          { encCalls := 0, eneCalls := [] }).2.2.2.2 none rfl⟩

/-- C5 counterexample: the claim that with a zero configured timeout the
derived per-request context carries no deadline is false at a concrete
input.  context.WithCancel inherits the parent deadline, so with a
parent request context whose deadline is 5 the derived context carries
deadline 5, not none. -/
theorem C5_counterexample :
    (serverFilterDerive 0 0 { deadline := some 5 }).deadline = some 5
    ∧ (some 5 : Option Nat) ≠ none :=
  ⟨rfl, by decide⟩

/-- C5 amended: relative to the parent request context: with a zero
timeout the filter adds no deadline of its own (the derived deadline is
exactly the parent deadline, so none when the parent is unbounded); with
a positive timeout the derived deadline is request-start plus the
timeout when the parent is unbounded, and the earlier of the parent
deadline and request-start plus the timeout otherwise; and the deferred
cancel of the derived context runs on every exit path of the filter,
including when the rest of the request panics. -/
theorem C5_amended (timeout : Int) (now : Nat) (parent : CtxModel)
    (next : CtxModel → POut Unit) :
    (timeout = 0 → (serverFilterDerive timeout now parent).deadline = parent.deadline)
    ∧ (0 < timeout → parent.deadline = none →
        (serverFilterDerive timeout now parent).deadline = some (now + timeout.toNat))
    ∧ (0 < timeout → ∀ pd, parent.deadline = some pd →
        (serverFilterDerive timeout now parent).deadline
          = some (min pd (now + timeout.toNat)))
    ∧ (serverFilterRun timeout now parent next).2 = true
    ∧ (serverFilterRun timeout now parent (fun _ => POut.panicked)).2 = true := by
  refine ⟨?_, ?_, ?_, rfl, rfl⟩
  · intro h
    subst h
    simp [serverFilterDerive, contextWithCancel]
  · intro h hp
    simp [serverFilterDerive, h, contextWithTimeout, hp]
  · intro h pd hp
    simp [serverFilterDerive, h, contextWithTimeout, hp]

/-- C5 amended, witness: with timeout 2, request start 0 and an unbounded
parent context, the derived deadline is 2 and the deferred cancel runs
even when the rest of the request panics. -/
theorem C5_amended_wit :
    ((0 : Int) < 2 ∧ (CtxModel.mk none).deadline = none)
    ∧ (serverFilterDerive 2 0 { deadline := none }).deadline = some (0 + (2 : Int).toNat)
    ∧ (serverFilterRun 2 0 { deadline := none } (fun _ => POut.panicked)).2 = true :=
  ⟨⟨by decide, rfl⟩,
   (C5_amended 2 0 { deadline := none } (fun _ => POut.panicked)).2.1 (by decide) rfl,
   (C5_amended 2 0 { deadline := none } (fun _ => POut.panicked)).2.2.2.2⟩

/-- C6 counterexample: the claim that the server-level handler installed
by NewServer is the global filter chain wrapping a status-to-error
translation wrapping the dispatch engine is false at a concrete input.
With no global filters and an engine producing status 500, the handler
NewServer actually installs leaves the gin error list empty — no error
signal is produced anywhere — while the handler the claim describes
records the generic unknown-reason 500 error; the two disagree on the
same request. -/
theorem C6_counterexample :
    newServerHandler [] engine500 { status := 200, ginErrors := [] }
      ≠ claimedServerHandler [] [] engine500 { status := 200, ginErrors := [] }
    ∧ (newServerHandler [] engine500 { status := 200, ginErrors := [] }).ginErrors = []
    ∧ (claimedServerHandler [] [] engine500 { status := 200, ginErrors := [] }).ginErrors
        = [errorsErrorf 500 unknownReason unknownReason] :=
  ⟨by decide, rfl, rfl⟩

/-- C6 amended: NewServer installs as the server-level handler the global
filter chain wrapping the gin dispatch engine directly; no status-to-
error translation is part of that handler.  The translation lives in the
separate Middlewares wrapper, which NewServer does not install: when it
wraps the dispatch, the innermost handler its middleware chain wraps
returns, exactly when the response status is >= 400, a generic error
built from UnknownReason carrying that status code (and no error below
400), and Middlewares records such an error on the gin context. -/
theorem C6_amended (filters : List (HttpHandler → HttpHandler))
    (engine : HttpHandler) (s : GinState) :
    newServerHandler filters engine = FilterChain filters engine
    ∧ middlewaresNext engine s
        = (engine s,
           if 400 ≤ (engine s).status then
             some (errorsErrorf (engine s).status unknownReason unknownReason)
           else none)
    ∧ Middlewares [] engine s
        = (if 400 ≤ (engine s).status then
             { engine s with ginErrors :=
                 (engine s).ginErrors ++ [errorsErrorf (engine s).status unknownReason unknownReason] }
           else engine s) := by
  refine ⟨rfl, ?_, ?_⟩
  · by_cases h : 400 ≤ (engine s).status <;> simp [middlewaresNext, h]
  · by_cases h : 400 ≤ (engine s).status <;>
      simp [Middlewares, middlewareChain, middlewaresNext, h]

/-- C7: Group returns a new Router whose path is the path.Join of the
parent path and the given one and whose middleware list is the parent
list with the additions appended in order (the parent value is
untouched — the model is pure and Group builds a fresh record); and
grouping a fresh router under a first segment with middleware A and the
result under a second segment with middleware B yields a router whose
effective middleware for a route carrying route middleware C is
[A, B, C] in that order, rooted at the joined path. -/
theorem C7_group_semantics {α : Type} (r : Router α) (p : String)
    (mws : List α) (A B C : α) :
    (r.Group p mws).pfx = pathJoin r.pfx p
    ∧ (r.Group p mws).filters = r.filters ++ mws
    ∧ (((Router.mk "" ([] : List α)).Group "/v1" [A]).Group "/admin" [B]).handleMs [C]
        = [A, B, C]
    ∧ (((Router.mk "" ([] : List α)).Group "/v1" [A]).Group "/admin" [B]).pfx
        = "/v1/admin" := by
  refine ⟨rfl, rfl, by simp [Router.Group, Router.handleMs], ?_⟩
  show pathJoin (pathJoin "" "/v1") "/admin" = "/v1/admin"
  decide

/-- C8: after a first successful Endpoint resolution from a fresh server
state, the resolution is idempotent: a second call returns the identical
state and no error — so the same URL, with net.Listen not called again
(the bind counter stays at one) and the endpoint not recomputed — and
the resolved URL scheme is https exactly when TLS is configured. -/
theorem C8_endpoint_idempotent (env : NetEnv) (tls : Bool) (s1 : SrvState)
    (hfirst : listenAndEndpoint env tls freshSrv = (s1, none)) :
    listenAndEndpoint env tls s1 = (s1, none)
    ∧ serverEndpoint env tls s1 = (s1, Except.ok s1.endpoint)
    ∧ s1.bindCount = 1
    ∧ ∃ u, s1.endpoint = some u ∧ (u.scheme = "https" ↔ tls = true) := by
  cases hb : env.bind with
  | error e =>
    exfalso
    simp [listenAndEndpoint, freshSrv, hb] at hfirst
  | ok l =>
    cases hx : env.extract (some l) with
    | error e =>
      exfalso
      simp [listenAndEndpoint, listenAndEndpointPhase2, freshSrv, hb, hx] at hfirst
    | ok addr =>
      simp [listenAndEndpoint, listenAndEndpointPhase2, freshSrv, hb, hx] at hfirst
      subst hfirst
      refine ⟨by simp [listenAndEndpoint, listenAndEndpointPhase2],
              by simp [serverEndpoint, listenAndEndpoint, listenAndEndpointPhase2],
              rfl, ⟨newEndpoint (endpointScheme "http" tls) addr, rfl, ?_⟩⟩
      cases tls <;> simp [newEndpoint, endpointScheme]

/-- C8 witness: a concrete environment where the bind succeeds with
listener 1 and the address resolves to 127.0.0.1:8000, with TLS
configured: the second resolution is a no-op returning the https
endpoint. -/
theorem C8_endpoint_idempotent_wit :
    listenAndEndpoint
        { bind := Except.ok 1, extract := fun _ => Except.ok "127.0.0.1:8000" } true
        { lis := some 1, endpoint := some { scheme := "https", host := "127.0.0.1:8000" },
          err := none, bindCount := 1 }
      = ({ lis := some 1, endpoint := some { scheme := "https", host := "127.0.0.1:8000" },
           err := none, bindCount := 1 }, none)
    ∧ ({ lis := some 1, endpoint := some { scheme := "https", host := "127.0.0.1:8000" },
         err := none, bindCount := 1 } : SrvState).bindCount = 1 := by
  have h := C8_endpoint_idempotent
    { bind := Except.ok 1, extract := fun _ => Except.ok "127.0.0.1:8000" } true
    { lis := some 1, endpoint := some { scheme := "https", host := "127.0.0.1:8000" },
      err := none, bindCount := 1 } rfl
  exact ⟨h.1, h.2.2.1⟩

/-- C9: Start returns nil when the serve loop ends with the
ErrServerClosed sentinel (and when it ends without error), returns any
other serve error unchanged, and returns a listener-resolution failure
unchanged before the serve loop is ever entered. -/
theorem C9_start_semantics (env : NetEnv) (tls : Bool) (s : SrvState) :
    (∀ s1, listenAndEndpoint env tls s = (s1, none) →
      serverStart env tls (some GoError.errServerClosed) s = (s1, none, true)
      ∧ serverStart env tls none s = (s1, none, true)
      ∧ ∀ msg, serverStart env tls (some (GoError.other msg)) s
          = (s1, some (GoError.other msg), true))
    ∧ (∀ s1 e, listenAndEndpoint env tls s = (s1, some e) →
        ∀ serveErr, serverStart env tls serveErr s = (s1, some e, false)) := by
  constructor
  · intro s1 h
    refine ⟨?_, ?_, fun msg => ?_⟩ <;> simp [serverStart, h, errorsIs, goErrorEq]
  · intro s1 e h serveErr
    simp [serverStart, h]

/-- C9 witness: with a concrete environment that binds listener 1 and
resolves 127.0.0.1:8000, a serve loop ending in ErrServerClosed makes
Start return nil after having served. -/
theorem C9_start_semantics_wit :
    serverStart { bind := Except.ok 1, extract := fun _ => Except.ok "127.0.0.1:8000" }
        false (some GoError.errServerClosed) freshSrv
      = ({ lis := some 1, endpoint := some { scheme := "http", host := "127.0.0.1:8000" },
           err := none, bindCount := 1 }, none, true) :=
  ((C9_start_semantics
      { bind := Except.ok 1, extract := fun _ => Except.ok "127.0.0.1:8000" }
      false freshSrv).1 _ rfl).1

/-- C10: every wrapper whose request reference is nil reports a dead
context through total methods: Deadline is the zero time with false,
Done is the nil channel, Err is context.Canceled, and Value is nil for
every key — no lookup can reach a previous request. -/
theorem C10_released_context_methods (c : wrapper) (h : c.req = none) :
    wrapper.Deadline c = (0, false)
    ∧ wrapper.Done c = none
    ∧ wrapper.Err c = some contextCanceled
    ∧ ∀ key, wrapper.Value c key = none := by
  refine ⟨?_, ?_, ?_, fun key => ?_⟩ <;>
    simp [wrapper.Deadline, wrapper.Done, wrapper.Err, wrapper.Value, h]

/-- C10 witness: the zero-valued wrapper has a nil request reference and
its context methods report the dead context. -/
theorem C10_released_context_methods_wit :
    wrapper.Deadline freshWrapper = (0, false)
    ∧ wrapper.Done freshWrapper = none
    ∧ wrapper.Err freshWrapper = some contextCanceled
    ∧ ∀ key, wrapper.Value freshWrapper key = none :=
  C10_released_context_methods freshWrapper rfl

end Zeus
